import Mathlib

/-!
Shallow embedding of the `lidar-web-app-viewer` repository:
the load-session state logic of `src/viewer/src/components/ModelViewer.tsx`
and the static-file routing of `src/viewer/server.mjs`.

JavaScript numbers are modelled as `JSNum`: either an exact rational or one
of the non-finite values `+Infinity`, `-Infinity`, `NaN`.  The viewer's own
stored progress values are always finite, so the React state `progress`
is modelled as `Option ℚ` (`null` ↦ `none`).
-/

namespace Viewer

/-- A JavaScript number: finite (modelled exactly as a rational) or one of
the three non-finite values. -/
inductive JSNum where
  | fin (q : ℚ)
  | posInf
  | negInf
  | nan
deriving DecidableEq, Repr

/-- JS comparison `x > 0` (`NaN > 0` is `false`, `Infinity > 0` is `true`). -/
def JSNum.gtZero : JSNum → Bool
  | .fin q => decide (0 < q)
  | .posInf => true
  | .negInf => false
  | .nan => false

/-- JS division `x / y`, restricted to the sign/finiteness behaviour of
IEEE-754: anything involving `NaN` is `NaN`; `∞ / ∞` is `NaN`;
`finite / ±∞` is (signed) zero, modelled as `0`; `±∞ / finite` keeps the
(combined) sign; `finite / 0` gives a signed infinity (or `NaN` for `0/0`). -/
def JSNum.div : JSNum → JSNum → JSNum
  | .nan, _ => .nan
  | .fin _, .nan => .nan
  | .posInf, .nan => .nan
  | .negInf, .nan => .nan
  | .posInf, .posInf => .nan
  | .posInf, .negInf => .nan
  | .negInf, .posInf => .nan
  | .negInf, .negInf => .nan
  | .posInf, .fin t => if 0 ≤ t then .posInf else .negInf
  | .negInf, .fin t => if 0 ≤ t then .negInf else .posInf
  | .fin _, .posInf => .fin 0
  | .fin _, .negInf => .fin 0
  | .fin l, .fin t =>
      if t = 0 then (if l = 0 then .nan else if 0 < l then .posInf else .negInf)
      else .fin (l / t)

/-- JS multiplication by the positive constant `100`. -/
def JSNum.mul100 : JSNum → JSNum
  | .fin q => .fin (q * 100)
  | .posInf => .posInf
  | .negInf => .negInf
  | .nan => .nan

/-- `Number.isFinite`. -/
def JSNum.isFin : JSNum → Bool
  | .fin _ => true
  | _ => false

/-- JS `Math.round` on a finite value: nearest integer, halves toward `+∞`. -/
def jsRound (q : ℚ) : ℤ := ⌊q + 1 / 2⌋

/-- The fields of a DOM `ProgressEvent` that `handleProgress` reads. -/
structure PEvent where
  loaded : JSNum
  total : JSNum
deriving DecidableEq, Repr

/-- The `next` value computed by `handleProgress` (ModelViewer.tsx:104-113):
`some` of the exact percentage when the event is present, `total > 0`, and
`(loaded / total) * 100` is finite; `none` otherwise.  The argument is
`Option PEvent` because the callback parameter `e` is optional. -/
def exactNext (e : Option PEvent) : Option ℤ :=
  match e with
  | none => none
  | some ev =>
    if ev.total.gtZero then
      match (ev.loaded.div ev.total).mul100 with
      | .fin pct => some (min (jsRound pct) 99)
      | _ => none
    else none

/-- The functional update passed to `setProgress` in `handleProgress`
(ModelViewer.tsx:114-118): exact value when available, otherwise the
fallback `prev == null ? 10 : Math.min(prev + 5, 95)`.  The source's final
guard `Number.isFinite(fallback) ? fallback : 0` is the identity here
because the fallback of a finite (or absent) `prev` is always finite. -/
def handleProgress (e : Option PEvent) (prev : Option ℚ) : ℚ :=
  match exactNext e with
  | some n => (n : ℚ)
  | none =>
    match prev with
    | none => 10
    | some p => min (p + 5) 95

/-- Successive stored progress values produced by a sequence of progress
events, starting from stored value `start`. -/
def runEstimates (start : Option ℚ) : List (Option PEvent) → List ℚ
  | [] => []
  | e :: rest =>
    let v := handleProgress e start
    v :: runEstimates (some v) rest

/-- JS `String.prototype.split` with a one-character separator, on the
character list of the string: splits at every occurrence; the result is
never empty (`"".split('.')` is `['']`). -/
def jsSplit (sep : Char) : List Char → List (List Char)
  | [] => [[]]
  | c :: rest =>
    let r := jsSplit sep rest
    if c = sep then [] :: r
    else (c :: r.headD []) :: r.tail

/-- JS `toLowerCase`, character by character. -/
def toLowerStr (s : String) : String := ⟨s.data.map Char.toLower⟩

/-- `modelUrl.split('.').pop()?.toLowerCase()` (ModelViewer.tsx:94):
the last segment of the split, lower-cased.  `Array.pop` returns
`undefined` only on an empty array, hence the `Option`. -/
def extOpt (url : String) : Option String :=
  ((jsSplit '.' url.data).getLast?).map (fun cs => toLowerStr ⟨cs⟩)

/-- What the format-dispatch `if/else if/else` chain
(ModelViewer.tsx:121-254) does for a given URL: construct a PLY loader,
construct a GLTF loader, or fail synchronously with a message. -/
inductive LoadAction where
  | loadPLY (url : String)
  | loadGLTF (url : String)
  | fail (msg : String)
deriving DecidableEq, Repr

/-- Whether the action constructs a loader (and hence issues a network
request for the model).  The `fail` branch constructs nothing. -/
def LoadAction.requestsNetwork : LoadAction → Bool
  | .loadPLY _ => true
  | .loadGLTF _ => true
  | .fail _ => false

/-- The dispatch on `ext` (ModelViewer.tsx:121,216,249-253), including the
`ext ?? '(unknown)'` default in the error message. -/
def dispatch (url : String) : LoadAction :=
  let e := extOpt url
  if e = some "ply" then .loadPLY url
  else if e = some "gltf" ∨ e = some "glb" then .loadGLTF url
  else .fail ("Unsupported file type: " ++ (e.getD "(unknown)"))

/-- The two supported model formats (each with its own loader callbacks). -/
inductive Format where
  | ply
  | gltf
deriving DecidableEq, Repr

/-- The fixed error message of each format's `onError` callback
(ModelViewer.tsx:213, 244-246). -/
def errMsg : Format → String
  | .ply => "Failed to load model (PLY). Please check the URL or file."
  | .gltf => "Failed to load model (GLB/GLTF). Please check the URL or file."

/-- The `setTimeout` delay, in milliseconds, after which a successful load
clears the overlay (ModelViewer.tsx:206 for PLY, :237 for GLTF). -/
def successDelay : Format → ℕ
  | .ply => 120
  | .gltf => 100

/-- The React state of the `ModelViewer` component that the load-session
claims are about (`isLoading`, `progress`, `error`, `reloadKey`,
`lastUrl`; initial values from the `useState` calls). -/
structure ViewerState where
  isLoading : Bool
  progress : Option ℚ
  error : Option String
  reloadKey : ℕ
  lastUrl : String
deriving DecidableEq, Repr

/-- The component's initial state (ModelViewer.tsx:15-19). -/
def initState : ViewerState :=
  { isLoading := false, progress := none, error := none, reloadKey := 0, lastUrl := "" }

/-- The synchronous part of the load effect (ModelViewer.tsx:89-254):
record the URL, clear the error, enter loading with progress `0`, then
dispatch on the extension; an unsupported extension immediately leaves
loading, clears progress and sets the error — no loader is constructed. -/
def startSession (url : String) (s : ViewerState) : ViewerState × LoadAction :=
  let s1 : ViewerState :=
    { s with lastUrl := url, error := none, isLoading := true, progress := some 0 }
  match dispatch url with
  | .loadPLY u => (s1, .loadPLY u)
  | .loadGLTF u => (s1, .loadGLTF u)
  | .fail msg =>
      ({ s1 with isLoading := false, progress := none, error := some msg }, .fail msg)

/-- A message posted to the host bridge
(`window.webkit.messageHandlers.viewer.postMessage`).  A field the source
omits from the literal is `none`. -/
structure HostMsg where
  type : String
  error : Option String
  url : Option String
deriving DecidableEq, Repr

/-- The message built by `handleCancel` (ModelViewer.tsx:315-318):
`{ type: 'viewerCanceled', url: lastUrl || null }`. -/
def cancelMsg (s : ViewerState) : HostMsg :=
  { type := "viewerCanceled", error := none
    url := if s.lastUrl = "" then none else some s.lastUrl }

/-- `handleCancel` (ModelViewer.tsx:300-319): abort the (unused) abort
controller, clear the loading flag and progress, and build the
`viewerCanceled` message.  `error` is never touched. -/
def handleCancel (s : ViewerState) : ViewerState × HostMsg :=
  ({ s with isLoading := false, progress := none }, cancelMsg s)

/-- Delivery to the host bridge: the message is posted exactly when the
bridge (`window.webkit?.messageHandlers?.viewer?.postMessage`) is present;
otherwise the optional chain no-ops. -/
def postToBridge (present : Bool) (m : HostMsg) : List HostMsg :=
  if present then [m] else []

/-- The events the component reacts to.  Loader callbacks carry the
`reloadKey` of the effect run (session) that created their closure; the
source code never consults it — every closure calls the same state
setters unconditionally. -/
inductive VEvent where
  | progressEv (gen : ℕ) (e : Option PEvent)
  | successEv (gen : ℕ) (fmt : Format)
  | timeoutEv (gen : ℕ)
  | failureEv (gen : ℕ) (fmt : Format)
  | retryEv
  | cancelEv
  | dismissEv

/-- One event step of the component.  `url` is the model URL the effect
resolves (constant across retries, since the query string is unchanged).
`progressEv`: `handleProgress` (every session's closure updates the shared
state; no generation check exists in the source).
`successEv`: the `onLoad` callbacks set progress to `100` and schedule a
timeout.  `timeoutEv`: the scheduled callback clears loading and progress.
`failureEv`: the `onError` callbacks (ModelViewer.tsx:209-214, 240-247).
`retryEv`: `handleRetry` clears the error and bumps `reloadKey`, which
re-runs the effect (`startSession`).  `cancelEv`: `handleCancel`.
`dismissEv`: `handleDismiss` clears the error. -/
def step (url : String) (ev : VEvent) (s : ViewerState) : ViewerState :=
  match ev with
  | .progressEv _ e => { s with progress := some (handleProgress e s.progress) }
  | .successEv _ _ => { s with progress := some 100 }
  | .timeoutEv _ => { s with isLoading := false, progress := none }
  | .failureEv _ fmt =>
      { s with isLoading := false, progress := none, error := some (errMsg fmt) }
  | .retryEv => (startSession url { s with error := none, reloadKey := s.reloadKey + 1 }).1
  | .cancelEv => (handleCancel s).1
  | .dismissEv => { s with error := none }

/-- An HTTP response of the static server: which file is sent and the
`Cache-Control` header our code sets (`none` on the SPA fallback, which
sets no such header itself). -/
structure HttpResponse where
  file : String
  cacheControl : Option String
deriving DecidableEq, Repr

/-- JS `String.prototype.endsWith`, on character lists. -/
def jsEndsWith (s suff : String) : Bool := suff.data.isSuffixOf s.data

/-- The `setHeaders` hook of `express.static` (server.mjs:18-25):
`filePath.endsWith(".html")` selects the short-lived header. -/
def cacheHeader (filePath : String) : String :=
  if jsEndsWith filePath ".html" then "public, max-age=60, must-revalidate"
  else "public, max-age=31536000, immutable"

/-- Static-file resolution of `express.static(distDir, {extensions:
["html"], ...})`: an exact match in the build output, else the path with
`.html` appended, else nothing. -/
def resolveStatic (files : List String) (p : String) : Option String :=
  if p ∈ files then some p
  else if (p ++ ".html") ∈ files then some (p ++ ".html")
  else none

/-- The server's routing (server.mjs:14-32): static middleware first, then
the `app.get("*")` SPA fallback sending `indexFile`. -/
def route (files : List String) (indexFile : String) (p : String) : HttpResponse :=
  match resolveStatic files p with
  | some f => { file := f, cacheControl := some (cacheHeader f) }
  | none => { file := indexFile, cacheControl := none }

/-! ### Helper lemmas -/

/-- Characterisation of `jsRound` through bounds on the argument. -/
lemma jsRound_eq (q : ℚ) (z : ℤ) (h1 : (z : ℚ) ≤ q + 1 / 2) (h2 : q + 1 / 2 < (z : ℚ) + 1) :
    jsRound q = z := by
  unfold jsRound
  exact Int.floor_eq_iff.mpr ⟨h1, h2⟩

/-- Every exact percentage computed by `handleProgress` is at most `99`. -/
lemma exactNext_le {e : Option PEvent} {n : ℤ} (h : exactNext e = some n) : n ≤ 99 := by
  match e with
  | none => simp [exactNext] at h
  | some ev =>
    simp only [exactNext] at h
    by_cases hg : ev.total.gtZero = true
    · rw [if_pos hg] at h
      rcases hm : (ev.loaded.div ev.total).mul100 with q | _ | _ | _ <;> rw [hm] at h
      · simp only [Option.some.injEq] at h
        exact h ▸ min_le_right _ _
      all_goals simp at h
    · rw [if_neg hg] at h
      simp at h

/-- The stored progress produced by any single progress event is at most `99`. -/
lemma handleProgress_le_99 (e : Option PEvent) (p : Option ℚ) : handleProgress e p ≤ 99 := by
  unfold handleProgress
  rcases h : exactNext e with _ | n
  · rcases p with _ | q
    · show (10 : ℚ) ≤ 99
      norm_num
    · show min (q + 5) 95 ≤ (99 : ℚ)
      exact le_trans (min_le_right _ _) (by norm_num)
  · show ((n : ℤ) : ℚ) ≤ 99
    exact_mod_cast exactNext_le h

/-- When the exact branch is unavailable, the handler returns the fallback. -/
lemma handleProgress_fallback (e : Option PEvent) (p : ℚ) (he : exactNext e = none) :
    handleProgress e none = 10 ∧ handleProgress e (some p) = min (p + 5) 95 := by
  unfold handleProgress
  rw [he]
  exact ⟨rfl, rfl⟩

/-- Every value produced along a run of progress events is at most `99`. -/
lemma runEstimates_le_99 (es : List (Option PEvent)) (start : Option ℚ) :
    ∀ v ∈ runEstimates start es, v ≤ 99 := by
  induction es generalizing start with
  | nil => intro v hv; simp [runEstimates] at hv
  | cons e rest ih =>
    intro v hv
    simp only [runEstimates, List.mem_cons] at hv
    rcases hv with hv | hv
    · exact hv ▸ handleProgress_le_99 e start
    · exact ih _ v hv

/-- A run of fallback-only events starting at `p ≤ 95` is a non-decreasing
chain of values bounded by `95`. -/
lemma runEstimates_fallback_chain (es : List (Option PEvent)) (p : ℚ) (hp : p ≤ 95)
    (he : ∀ e ∈ es, exactNext e = none) :
    List.Chain (· ≤ ·) p (runEstimates (some p) es) ∧
      ∀ v ∈ runEstimates (some p) es, v ≤ 95 := by
  induction es generalizing p with
  | nil => exact ⟨List.Chain.nil, by simp [runEstimates]⟩
  | cons e rest ih =>
    have hv : handleProgress e (some p) = min (p + 5) 95 :=
      (handleProgress_fallback e p (he e (List.mem_cons_self e rest))).2
    have hv95 : handleProgress e (some p) ≤ 95 := hv ▸ min_le_right _ _
    have hpv : p ≤ handleProgress e (some p) := by
      rw [hv]
      exact le_min (by linarith) hp
    have hrest := ih (handleProgress e (some p)) hv95
      (fun x hx => he x (List.mem_cons_of_mem e hx))
    refine ⟨List.Chain.cons hpv hrest.1, ?_⟩
    intro v hv'
    simp only [runEstimates, List.mem_cons] at hv'
    rcases hv' with hv' | hv'
    · exact hv' ▸ hv95
    · exact hrest.2 v hv'

/-- `jsSplit` never returns the empty list (matching JS `split`). -/
lemma jsSplit_ne_nil (sep : Char) (s : List Char) : jsSplit sep s ≠ [] := by
  cases s with
  | nil => simp [jsSplit]
  | cons c rest =>
    simp only [jsSplit]
    split <;> simp

/-- Splitting a list that does not contain the separator yields the
singleton list of the whole input. -/
lemma jsSplit_no_sep (sep : Char) (s : List Char) (h : sep ∉ s) : jsSplit sep s = [s] := by
  induction s with
  | nil => rfl
  | cons c rest ih =>
    simp only [List.mem_cons, not_or] at h
    simp only [jsSplit, ih h.2]
    rw [if_neg (fun hh => h.1 hh.symm)]
    rfl

/-- On a URL with no dot, the derived extension is the whole URL,
lower-cased. -/
lemma extOpt_no_dot (url : String) (h : '.' ∉ url.data) :
    extOpt url = some (toLowerStr url) := by
  unfold extOpt
  rw [jsSplit_no_sep _ _ h]
  rfl

/-- The derived extension always exists: `split` never yields an empty
array, so `.pop()` never returns `undefined`. -/
lemma extOpt_isSome (url : String) : (extOpt url).isSome = true := by
  unfold extOpt
  rcases h : (jsSplit '.' url.data).getLast? with _ | x
  · exact absurd (List.getLast?_eq_none_iff.mp h) (jsSplit_ne_nil '.' url.data)
  · rfl

/-- An extension other than `ply`, `gltf`, `glb` takes the `else` branch of
the dispatch chain. -/
lemma dispatch_unsupported (url x : String) (hx : extOpt url = some x)
    (h1 : x ≠ "ply") (h2 : x ≠ "gltf") (h3 : x ≠ "glb") :
    dispatch url = .fail ("Unsupported file type: " ++ x) := by
  unfold dispatch
  rw [hx]
  rw [if_neg (by simp [h1]), if_neg (by simp [h2, h3])]
  rfl

/-- `startSession` on a URL whose dispatch fails: loading and progress are
cleared, the error is set, and the returned action is the failure. -/
lemma startSession_fail (url msg : String) (s : ViewerState)
    (hd : dispatch url = .fail msg) :
    startSession url s =
      ({ s with lastUrl := url, isLoading := false, progress := none, error := some msg },
        .fail msg) := by
  unfold startSession
  rw [hd]

/-! ### Claim theorems -/

/-- C1: for every progress event with a finite `total > 0` and finite
`0 ≤ loaded ≤ total` received while loading, the progress handler sets the
stored progress to exactly `min(round(loaded/total*100), 99)`. -/
theorem progress_exact_formula (url : String) (s : ViewerState) (g : ℕ) (l t : ℚ)
    (_hload : s.isLoading = true) (ht : 0 < t) (_h0 : 0 ≤ l) (_hl : l ≤ t) :
    (step url (.progressEv g (some ⟨.fin l, .fin t⟩)) s).progress
      = some ((min (jsRound (l / t * 100)) 99 : ℤ) : ℚ) := by
  simp only [step]
  simp only [handleProgress, exactNext, JSNum.gtZero, JSNum.div, JSNum.mul100,
    decide_eq_true_eq, if_pos ht, if_neg (ne_of_gt ht)]

/-- Witness for C1: `loaded = 50`, `total = 200` sets the stored progress to
`25` (`min(round(25), 99)`). -/
theorem progress_exact_formula_witness :
    (step "m.ply" (.progressEv 0 (some ⟨.fin 50, .fin 200⟩))
        ⟨true, some 0, none, 0, "m.ply"⟩).progress = some 25 := by
  have h := progress_exact_formula "m.ply" ⟨true, some 0, none, 0, "m.ply"⟩ 0 50 200 rfl
    (by norm_num) (by norm_num) (by norm_num)
  rw [h, jsRound_eq (50 / 200 * 100) 25 (by norm_num) (by norm_num)]
  norm_num

/-- C2, counterexample: a progress event with non-finite `total = +∞` and
finite `loaded` does not trigger the fallback — the handler sets the exact
value `0` (since `loaded / ∞ = 0`), instead of `10` (no prior estimate)
or `min(prev + 5, 95)` (prior estimate `50`). -/
theorem progress_fallback_counterexample :
    handleProgress (some ⟨.fin 1000, .posInf⟩) none = 0 ∧
    handleProgress (some ⟨.fin 1000, .posInf⟩) (some 50) = 0 ∧
    (0 : ℚ) ≠ 10 ∧ (0 : ℚ) ≠ min (50 + 5) 95 := by
  have hj : jsRound (0 * 100) = 0 := jsRound_eq _ 0 (by norm_num) (by norm_num)
  have key : ∀ pr : Option ℚ,
      handleProgress (some ⟨.fin 1000, .posInf⟩) pr = ((min (jsRound (0 * 100)) 99 : ℤ) : ℚ) :=
    fun _ => rfl
  have key0 : ∀ pr : Option ℚ, handleProgress (some ⟨.fin 1000, .posInf⟩) pr = 0 := by
    intro pr
    rw [key pr, hj]
    norm_num
  exact ⟨key0 none, key0 (some 50), by norm_num, by norm_num [min_def]⟩

/-- C2, amended: for every progress event that is absent, or for which the
exact branch yields nothing (`total` not greater than zero — i.e. zero,
negative, `NaN` or `-∞` — or a non-finite computed percentage), the
handler applies the fallback: `10` with no prior estimate, otherwise the
prior estimate plus `5` capped at `95`; for any sequence of such events
starting from no prior estimate, the successive estimates are
non-decreasing, start at `10`, and are bounded by `95`.  (An event with
`total = +∞` and finite `loaded` is not such an event: its exact branch
yields `0`.) -/
theorem progress_fallback_amended (e : Option PEvent) (p : ℚ) (es : List (Option PEvent))
    (he : exactNext e = none) (hes : ∀ x ∈ es, exactNext x = none) :
    handleProgress e none = 10 ∧
    handleProgress e (some p) = min (p + 5) 95 ∧
    (runEstimates none (e :: es)).head? = some 10 ∧
    List.Chain' (· ≤ ·) (runEstimates none (e :: es)) ∧
    ∀ v ∈ runEstimates none (e :: es), v ≤ 95 := by
  have h10 := (handleProgress_fallback e p he).1
  have hrun : runEstimates none (e :: es) = 10 :: runEstimates (some 10) es := by
    simp only [runEstimates, h10]
  have hchain := runEstimates_fallback_chain es 10 (by norm_num) hes
  refine ⟨h10, (handleProgress_fallback e p he).2, ?_, ?_, ?_⟩
  · rw [hrun]; rfl
  · rw [hrun]
    exact hchain.1
  · rw [hrun]
    intro v hv
    rcases List.mem_cons.mp hv with hv | hv
    · rw [hv]; norm_num
    · exact hchain.2 v hv

/-- Witness for C2 (amended): three fallback events from no prior estimate
yield the estimates `10, 15, 20`. -/
theorem progress_fallback_amended_witness :
    handleProgress none none = 10 ∧
    handleProgress none (some 7) = min (7 + 5) 95 ∧
    (runEstimates none [none, none, none]).head? = some 10 ∧
    List.Chain' (· ≤ ·) (runEstimates none [none, none, none]) ∧
    ∀ v ∈ runEstimates none [none, none, none], v ≤ 95 := by
  have h := progress_fallback_amended none 7 [none, none] rfl
    (by intro x hx; rcases List.mem_cons.mp hx with h | h
        · rw [h]; rfl
        · rw [List.mem_singleton.mp h]; rfl)
  exact h

/-- C3, counterexample: `handleRetry` only clears the error and bumps
`reloadKey`; no callback consults the generation, so a progress callback
created by the superseded session still changes the stored progress after
`retry()` (here from `0` to `25`). -/
theorem stale_callback_counterexample :
    (step "m.ply" VEvent.retryEv (startSession "m.ply" initState).1).progress = some 0 ∧
    (step "m.ply" (.progressEv 0 (some ⟨.fin 50, .fin 200⟩))
        (step "m.ply" VEvent.retryEv (startSession "m.ply" initState).1)).progress = some 25 ∧
    step "m.ply" (.progressEv 0 (some ⟨.fin 50, .fin 200⟩))
        (step "m.ply" VEvent.retryEv (startSession "m.ply" initState).1)
      ≠ step "m.ply" VEvent.retryEv (startSession "m.ply" initState).1 := by
  have hd : dispatch "m.ply" = .loadPLY "m.ply" := by decide
  have h1 : step "m.ply" VEvent.retryEv (startSession "m.ply" initState).1 =
      { isLoading := true, progress := some 0, error := none, reloadKey := 1,
        lastUrl := "m.ply" } := by
    simp only [step, startSession, hd]
    rfl
  have h25 : handleProgress (some ⟨.fin 50, .fin 200⟩) (some 0) = 25 := by
    have h := progress_exact_formula "m.ply"
      { isLoading := true, progress := some 0, error := none, reloadKey := 1,
        lastUrl := "m.ply" } 0 50 200 rfl (by norm_num) (by norm_num) (by norm_num)
    simp only [step] at h
    rw [jsRound_eq (50 / 200 * 100) 25 (by norm_num) (by norm_num)] at h
    simpa using h
  refine ⟨by rw [h1], ?_, ?_⟩
  · rw [h1]
    simp only [step, h25]
  · rw [h1]
    intro hcontra
    have := congrArg ViewerState.progress hcontra
    simp only [step, h25] at this
    norm_num at this

/-- C3, amended: after `retry()` starts a new load session, callbacks
belonging to the prior session are not suppressed — the source has no
generation check, so every loader callback mutates the state identically
whatever session created it, and in particular a prior-session progress
callback still updates the stored progress through `handleProgress`. -/
theorem stale_callback_amended (url : String) (s : ViewerState) (g g' : ℕ)
    (e : Option PEvent) (fmt : Format) :
    step url (.progressEv g e) s = step url (.progressEv g' e) s ∧
    step url (.successEv g fmt) s = step url (.successEv g' fmt) s ∧
    step url (.failureEv g fmt) s = step url (.failureEv g' fmt) s ∧
    step url (.timeoutEv g) s = step url (.timeoutEv g') s ∧
    (step url (.progressEv g e) (step url .retryEv s)).progress
      = some (handleProgress e (step url .retryEv s).progress) :=
  ⟨rfl, rfl, rfl, rfl, rfl⟩

/-- C4, counterexample: within a single session while loading, the stored
progress is not monotone — a fallback event after session start yields
`5`, and a following exact byte-count event (`loaded = 1`, `total = 100`)
lowers it to `1`. -/
theorem progress_monotone_counterexample :
    (startSession "m.ply" initState).1.isLoading = true ∧
    (step "m.ply" (.progressEv 0 none) (startSession "m.ply" initState).1).progress
      = some 5 ∧
    (step "m.ply" (.progressEv 0 (some ⟨.fin 1, .fin 100⟩))
        (step "m.ply" (.progressEv 0 none) (startSession "m.ply" initState).1)).progress
      = some 1 ∧
    ¬ (5 : ℚ) ≤ 1 := by
  have hd : dispatch "m.ply" = .loadPLY "m.ply" := by decide
  have h0 : (startSession "m.ply" initState).1 =
      { isLoading := true, progress := some 0, error := none, reloadKey := 0,
        lastUrl := "m.ply" } := by
    simp only [startSession, hd]
    rfl
  have h5 : handleProgress none (some 0) = 5 := by
    rw [(handleProgress_fallback none 0 rfl).2, min_def]
    norm_num
  have h1 : handleProgress (some ⟨.fin 1, .fin 100⟩) (some 5) = 1 := by
    have h := progress_exact_formula "m.ply"
      { isLoading := true, progress := some 5, error := none, reloadKey := 0,
        lastUrl := "m.ply" } 0 1 100 rfl (by norm_num) (by norm_num) (by norm_num)
    simp only [step] at h
    rw [jsRound_eq (1 / 100 * 100) 1 (by norm_num) (by norm_num)] at h
    simpa using h
  refine ⟨by rw [h0], by rw [h0]; simp only [step, h5], ?_, by norm_num⟩
  rw [h0]
  simp only [step, h5, h1]

/-- C4, amended: within a single load session, for every sequence of
progress events delivered while loading, every stored progress value is at
most `99` (whatever the interleaving of exact and fallback events), and
the success event sets it to exactly `100`; the stored value is not
necessarily non-decreasing, since an exact byte-count event may set a
value below a prior fallback estimate. -/
theorem progress_bounded_amended (url : String) (es : List (Option PEvent)) (v : ℚ)
    (s : ViewerState) (g : ℕ) (fmt : Format)
    (hv : v ∈ runEstimates (some 0) es) :
    v ≤ 99 ∧ (step url (.successEv g fmt) s).progress = some 100 :=
  ⟨runEstimates_le_99 es (some 0) v hv, rfl⟩

/-- Witness for C4 (amended): the estimate `5` produced by a first
fallback event is at most `99`, and success sets `100`. -/
theorem progress_bounded_amended_witness :
    (5 : ℚ) ≤ 99 ∧
    (step "m.ply" (.successEv 0 .ply) ⟨true, some 5, none, 0, "m.ply"⟩).progress
      = some 100 := by
  have h5 : handleProgress none (some 0) = 5 := by
    rw [(handleProgress_fallback none 0 rfl).2, min_def]
    norm_num
  exact progress_bounded_amended "m.ply" [none] 5 ⟨true, some 5, none, 0, "m.ply"⟩ 0 .ply
    (by simp only [runEstimates, h5, List.mem_singleton])

/-- C5: for every model URL whose derived extension (lower-cased text after
the last dot) is neither `ply`, `gltf` nor `glb`, the session fails
immediately and synchronously: loading and progress are cleared, the error
is `Unsupported file type: <ext>`, and the dispatched action is a failure
that constructs no loader and issues no network request. -/
theorem unsupported_format_fails (url x : String) (s : ViewerState)
    (hx : extOpt url = some x) (h1 : x ≠ "ply") (h2 : x ≠ "gltf") (h3 : x ≠ "glb") :
    (startSession url s).1.isLoading = false ∧
    (startSession url s).1.progress = none ∧
    (startSession url s).1.error = some ("Unsupported file type: " ++ x) ∧
    (startSession url s).2 = .fail ("Unsupported file type: " ++ x) ∧
    ((startSession url s).2).requestsNetwork = false := by
  have hd := dispatch_unsupported url x hx h1 h2 h3
  rw [startSession_fail url _ s hd]
  exact ⟨rfl, rfl, rfl, rfl, rfl⟩

/-- Witness for C5: the URL `.../thing.xyz` fails immediately with
`Unsupported file type: xyz` and no network request. -/
theorem unsupported_format_fails_witness :
    (startSession "https://example.com/thing.xyz" initState).1.isLoading = false ∧
    (startSession "https://example.com/thing.xyz" initState).1.error
      = some "Unsupported file type: xyz" ∧
    ((startSession "https://example.com/thing.xyz" initState).2).requestsNetwork = false := by
  have h := unsupported_format_fails "https://example.com/thing.xyz" "xyz" initState
    (by decide) (by decide) (by decide) (by decide)
  exact ⟨h.1, h.2.2.1, h.2.2.2.2⟩

/-- C6: a failure callback delivered while loading moves the session to the
failed state: the loading flag and progress are cleared and the error is
the format-specific fixed message. -/
theorem failure_callback (url : String) (s : ViewerState) (g : ℕ) (fmt : Format)
    (_h : s.isLoading = true) :
    step url (.failureEv g fmt) s
      = { s with isLoading := false, progress := none, error := some (errMsg fmt) } ∧
    errMsg .ply = "Failed to load model (PLY). Please check the URL or file." ∧
    errMsg .gltf = "Failed to load model (GLB/GLTF). Please check the URL or file." :=
  ⟨rfl, rfl, rfl⟩

/-- Witness for C6: a PLY failure while loading clears the flags and sets
the PLY message. -/
theorem failure_callback_witness :
    step "m.ply" (.failureEv 0 .ply) ⟨true, some 40, none, 0, "m.ply"⟩
      = ⟨false, none, some "Failed to load model (PLY). Please check the URL or file.",
          0, "m.ply"⟩ :=
  (failure_callback "m.ply" ⟨true, some 40, none, 0, "m.ply"⟩ 0 .ply rfl).1

/-- C7: every success callback sets the stored progress to exactly `100`;
the scheduled clear fires after a fixed delay of `120` (PLY) or `100`
(GLTF) time units — within `[100, 120]` — and then clears the loading
flag and the progress. -/
theorem success_callback (url : String) (s : ViewerState) (g : ℕ) (fmt : Format) :
    (step url (.successEv g fmt) s).progress = some 100 ∧
    100 ≤ successDelay fmt ∧ successDelay fmt ≤ 120 ∧
    (step url (.timeoutEv g) (step url (.successEv g fmt) s)).isLoading = false ∧
    (step url (.timeoutEv g) (step url (.successEv g fmt) s)).progress = none := by
  refine ⟨rfl, ?_, ?_, rfl, rfl⟩ <;> cases fmt <;> simp [successDelay]

/-- C8: `cancel()` while loading clears the loading flag and the progress,
leaves the error untouched, and builds a `viewerCanceled` message carrying
the session's URL, delivered to the host bridge exactly when one is
present. -/
theorem cancel_clears (s : ViewerState) (_h : s.isLoading = true) (hurl : s.lastUrl ≠ "") :
    (handleCancel s).1.isLoading = false ∧
    (handleCancel s).1.progress = none ∧
    (handleCancel s).1.error = s.error ∧
    (handleCancel s).2 = { type := "viewerCanceled", error := none, url := some s.lastUrl } ∧
    postToBridge true (handleCancel s).2 = [(handleCancel s).2] ∧
    postToBridge false (handleCancel s).2 = [] := by
  refine ⟨rfl, rfl, rfl, ?_, rfl, rfl⟩
  simp [handleCancel, cancelMsg, hurl]

/-- Witness for C8: cancelling a loading session for `m.ply` clears the
flags and posts the `viewerCanceled` message with the URL. -/
theorem cancel_clears_witness :
    (handleCancel ⟨true, some 42, none, 0, "m.ply"⟩).1.isLoading = false ∧
    (handleCancel ⟨true, some 42, none, 0, "m.ply"⟩).1.progress = none ∧
    (handleCancel ⟨true, some 42, none, 0, "m.ply"⟩).1.error = none ∧
    (handleCancel ⟨true, some 42, none, 0, "m.ply"⟩).2
      = { type := "viewerCanceled", error := none, url := some "m.ply" } := by
  have h := cancel_clears ⟨true, some 42, none, 0, "m.ply"⟩ rfl (by decide)
  exact ⟨h.1, h.2.1, h.2.2.1, h.2.2.2.1⟩

/-- C9: a request path matching a file in the build output is served with
`public, max-age=60, must-revalidate` when the file path ends in `.html`
and `public, max-age=31536000, immutable` otherwise; every unmatched path
is answered with the entry document. -/
theorem server_routing (files : List String) (indexFile p : String) :
    (p ∈ files →
      route files indexFile p =
        { file := p,
          cacheControl := some (if jsEndsWith p ".html" then "public, max-age=60, must-revalidate"
            else "public, max-age=31536000, immutable") }) ∧
    (resolveStatic files p = none →
      route files indexFile p = { file := indexFile, cacheControl := none }) := by
  constructor
  · intro h
    simp [route, resolveStatic, h, cacheHeader]
  · intro h
    simp [route, h]

/-- Witness for C9: `assets/app.js` is served with immutable caching,
`index.html` with the short-lived header, and an unknown path falls back
to the entry document. -/
theorem server_routing_witness :
    route ["index.html", "assets/app.js"] "index.html" "assets/app.js"
      = { file := "assets/app.js", cacheControl := some "public, max-age=31536000, immutable" } ∧
    route ["index.html", "assets/app.js"] "index.html" "index.html"
      = { file := "index.html", cacheControl := some "public, max-age=60, must-revalidate" } ∧
    route ["index.html", "assets/app.js"] "index.html" "missing/route"
      = { file := "index.html", cacheControl := none } := by
  refine ⟨?_, ?_, ?_⟩
  · have h := (server_routing ["index.html", "assets/app.js"] "index.html" "assets/app.js").1
      (by decide)
    rw [h]
    rfl
  · have h := (server_routing ["index.html", "assets/app.js"] "index.html" "index.html").1
      (by decide)
    rw [h]
    rfl
  · exact (server_routing ["index.html", "assets/app.js"] "index.html" "missing/route").2
      (by decide)

/-- C10: for a non-empty model URL containing no dot, the derived extension
is the whole URL lower-cased (never an absent extension); when that
lower-cased URL is not a supported extension, the dispatch failure message
embeds the whole lower-cased URL after `Unsupported file type: `, so the
`(unknown)` placeholder branch is unreachable. -/
theorem no_dot_extension (url : String) (_hne : url ≠ "") (hdot : '.' ∉ url.data) :
    extOpt url = some (toLowerStr url) ∧
    (toLowerStr url ≠ "ply" → toLowerStr url ≠ "gltf" → toLowerStr url ≠ "glb" →
      dispatch url = .fail ("Unsupported file type: " ++ toLowerStr url)) ∧
    (extOpt url).isSome = true := by
  refine ⟨extOpt_no_dot url hdot, ?_, extOpt_isSome url⟩
  intro h1 h2 h3
  exact dispatch_unsupported url (toLowerStr url) (extOpt_no_dot url hdot) h1 h2 h3

/-- Witness for C10: the dotless URL `Nodot` derives extension `nodot` and
fails with a message embedding the whole lower-cased URL. -/
theorem no_dot_extension_witness :
    extOpt "Nodot" = some "nodot" ∧
    dispatch "Nodot" = .fail "Unsupported file type: nodot" ∧
    (extOpt "Nodot").isSome = true := by
  have h := no_dot_extension "Nodot" (by decide) (by decide)
  have hlow : toLowerStr "Nodot" = "nodot" := by decide
  refine ⟨?_, ?_, h.2.2⟩
  · rw [h.1, hlow]
  · have h2 := h.2.1 (by decide) (by decide) (by decide)
    rw [hlow] at h2
    exact h2

end Viewer
